import Mathlib

/-!
Shallow embedding of the `schedular` repository's decision pipeline
(`main.py`, `nlp_parser.py`, `utils.py`).

Modelling conventions:
* A Python naive `datetime` is modelled as `Int` seconds since the Unix epoch
  read as civil time in the relevant timezone (the repository's "JST-naive
  convention": every naive datetime means Asia/Tokyo local time).  The server
  clock is assumed to run in JST, so `datetime.now()` (main.py) and
  `now_jst()` (nlp_parser.py) denote the same civil value, passed in as an
  explicit `now : Int` parameter.
* `jpholiday.is_holiday` is an external data set; it is passed in as a
  predicate `hol : Int → Bool` on epoch day numbers.
* Dynamic (JSON-shaped) values coming back from the language model are
  modelled with `PyVal` where the dynamic typing matters (`duration`,
  attendee entries) and with `Option String` where only presence/absence
  matters for the code under study.
* I/O (the model completion call, the Google Calendar fetch) is modelled by
  passing the fetched data in as an argument; a Python exception escaping a
  function is modelled with `Except`.
-/

namespace Scheduler

/-- Epoch day number of a civil timestamp (Python `dt.date()` ordinal shift):
floor division, as Python's `//`. -/
def dayNumber (dt : Int) : Int := Int.fdiv dt 86400

/-- Python `dt.weekday()`: Monday = 0 … Sunday = 6.  1970-01-01 (day 0) was a
Thursday (= 3). -/
def weekday (dt : Int) : Int := Int.emod (dayNumber dt + 3) 7

/-- Seconds since local midnight (Python `dt.time()` as seconds). -/
def timeOfDay (dt : Int) : Int := Int.emod dt 86400

/-- `utils.is_japanese_working_hours`: holiday → False; weekend (weekday ≥ 5)
→ False; `time(9,0) <= dt.time() < time(19,0)` → True; otherwise False.
09:00 = 32400 s, 19:00 = 68400 s. -/
def is_japanese_working_hours (hol : Int → Bool) (dt : Int) : Bool :=
  if hol (dayNumber dt) then false
  else if 5 ≤ weekday dt then false
  else if 32400 ≤ timeOfDay dt ∧ timeOfDay dt < 68400 then true
  else false

/-- The meeting-details dictionary flowing through the pipeline
(`MeetingParser._finalize` / `_empty` output, consumed by `main.py`).
`start_time` is `none` when the dict holds `None` (or any non-`datetime`
value, which every consumer collapses into the same branch via
`isinstance` checks); `duration` is the dict's `"duration"` key. -/
structure Candidate where
  status : String
  reason : String
  topic : String
  start_time : Option Int
  duration : Int
  attendees : List String
  description : String
  decision_source : String
deriving DecidableEq, Repr

/-- `main.apply_hardcoded_fallback_rules`.  `{**meeting_details, "status": …,
"reason": …}` keeps every other field, hence `{ c with … }`.  The source's
`datetime.now()` is the `now` parameter (JST server clock, see header); its
two occurrences in one condition are the single instant `now`.  The source's
coercion of a non-list `attendees` value to `[]` is invisible here because
`attendees` is already typed as a list. -/
def apply_hardcoded_fallback_rules (hol : Int → Bool) (now : Int)
    (c : Candidate) : Candidate :=
  match c.start_time with
  | none =>
      { c with status := "incomplete", reason := "Date/time not specified." }
  | some start_time =>
      if c.attendees.length = 0 then
        { c with status := "no_attendees", reason := "No attendees specified" }
      else if start_time < now ∨ start_time - now < 18000 then
        { c with status := "too_soon",
                 reason := "Meeting is too soon (less than 5 hours from now)" }
      else if is_japanese_working_hours hol start_time then
        { c with status := "not_working_hours",
                 reason := "JST working hours (9am-7pm on working days)" }
      else
        { c with status := "valid", reason := "none" }

/-- `main.is_ai_decision_usable`. -/
def is_ai_decision_usable (c : Candidate) : Bool :=
  if c.decision_source ≠ "ai" then false
  else if ¬ (c.status = "valid" ∨ c.status = "incomplete" ∨
             c.status = "no_attendees" ∨ c.status = "too_soon" ∨
             c.status = "not_working_hours") then false
  else if c.status = "valid" then
    match c.start_time with
    | none => false
    | some _ => if c.attendees.length = 0 then false else true
  else true

/-- The reconciliation step inlined in `main.schedule_meeting` (lines
136-138): keep the parser's candidate when its decision is usable, otherwise
recompute via the hardcoded fallback rules. -/
def reconcile (hol : Int → Bool) (now : Int) (c : Candidate) : Candidate :=
  if is_ai_decision_usable c then c
  else apply_hardcoded_fallback_rules hol now c

/-- `MeetingParser._derive_status`.  The source's `now_jst()` is the `now`
parameter; the `tzinfo` adjustment on `start_dt` is the identity here because
all civil values are already JST.  Returns `(status, reason)`. -/
def derive_status (hol : Int → Bool) (now : Int) (start_dt : Option Int)
    (attendees : List String) : String × String :=
  match start_dt with
  | none => ("incomplete", "Date/time missing.")
  | some start_dt =>
      if attendees.isEmpty then ("no_attendees", "No attendee emails.")
      else if start_dt ≤ now ∨ start_dt - now < 18000 then
        ("too_soon", "Meeting is less than 5 hours away.")
      else if weekday start_dt < 5 ∧
              (32400 ≤ timeOfDay start_dt ∧ timeOfDay start_dt < 68400) ∧
              hol (dayNumber start_dt) = false then
        ("not_working_hours", "Within working hours (9-19 JST).")
      else ("valid", "ok")

/-! ## Intent extractor (`nlp_parser.MeetingParser`) -/

/-- A dynamically-typed JSON value, as far as the code under study
distinguishes shapes (`int` also stands for a JSON integer literal). -/
inductive PyVal where
  | pynone
  | str (s : String)
  | int (n : Int)
  | list (xs : List PyVal)

/-- The decoded model response consumed by `MeetingParser._finalize`
(`data.get(key)` returning `None` for an absent key is `Option.none`).
`duration` and the attendee entries keep their dynamic type because the code
branches on it; the remaining fields only matter as present-or-absent
strings here. -/
structure ModelJson where
  topic : Option String
  start_time : Option String
  duration : PyVal
  attendees : Option (List PyVal)
  description : Option String

/-- Characters of the regex class `[A-Za-z0-9._%+-]` (local part). -/
def isLocalChar (c : Char) : Bool :=
  c.isAlphanum || c == '.' || c == '_' || c == '%' || c == '+' || c == '-'

/-- Characters of the regex class `[A-Za-z0-9.-]` (domain). -/
def isDomainChar (c : Char) : Bool :=
  c.isAlphanum || c == '.' || c == '-'

/-- Split a character list at the first occurrence of `sep`; `none` when
`sep` does not occur. -/
def splitAtChar (sep : Char) : List Char → Option (List Char × List Char)
  | [] => none
  | c :: rest =>
      if c == sep then some ([], rest)
      else (splitAtChar sep rest).map (fun p => (c :: p.1, p.2))

/-- The domain side of `MeetingParser._is_email`'s regex,
`[A-Za-z0-9.-]+\.[A-Za-z]{2,}` anchored at the end: every character is in
the domain class, the trailing alphabetic run has length ≥ 2, it is preceded
by a literal dot, and at least one domain-class character precedes that dot.
(An anchored regex match exists exactly under these conditions: any
alternative dot split would place an alphabetic character, not a dot, before
the trailing run.) -/
def domainOk (cs : List Char) : Bool :=
  cs.all isDomainChar &&
  (let rs := cs.reverse
   let tld := rs.takeWhile (fun c => c.isAlpha)
   2 ≤ tld.length &&
   match rs.dropWhile (fun c => c.isAlpha) with
   | '.' :: more => !more.isEmpty
   | _ => false)

/-- `MeetingParser._is_email`:
`re.match(r"^[A-Za-z0-9._%+-]+@[A-Za-z0-9.-]+\.[A-Za-z]{2,}$", value)`.
Neither character class contains `@`, so a match forces exactly one `@`,
splitting the string into local part and domain.  (Python's `$` would also
tolerate one trailing newline; that slack is not modelled.) -/
def is_email (value : String) : Bool :=
  match splitAtChar '@' value.data with
  | some (lp, domain) => !lp.isEmpty && lp.all isLocalChar && domainOk domain
  | none => false

def digitVal (c : Char) : Int := Int.ofNat c.toNat - 48

/-- Python `str.strip()`: drop leading and trailing whitespace. -/
def pyStrip (s : String) : String :=
  ⟨((s.data.dropWhile Char.isWhitespace).reverse.dropWhile
      Char.isWhitespace).reverse⟩

/-- A nonempty all-digit character list as a number. -/
def digitsToInt (cs : List Char) : Option Int :=
  if cs.isEmpty then none
  else if cs.all Char.isDigit then
    some (cs.foldl (fun a c => a * 10 + digitVal c) 0)
  else none

/-- Python `int(str)` on a literal: optional surrounding whitespace, optional
sign, decimal digits.  (Digit-group underscores and non-ASCII digits are not
modelled.) -/
def parseIntLiteral (s : String) : Option Int :=
  match (pyStrip s).data with
  | '+' :: rest => digitsToInt rest
  | '-' :: rest => (digitsToInt rest).map Int.neg
  | cs => digitsToInt cs

/-- `MeetingParser._safe_int`: `int(v)`, with `TypeError`/`ValueError`
(i.e. `None`, a list, or an unparseable string) giving the default. -/
def safe_int (v : PyVal) (default : Int) : Int :=
  match v with
  | .int n => n
  | .str s =>
      match parseIntLiteral s with
      | some n => n
      | none => default
  | _ => default

/-! ### Civil-date arithmetic (Python `datetime` construction) -/

def isLeapYear (y : Int) : Bool :=
  (Int.emod y 4 == 0 && Int.emod y 100 != 0) || Int.emod y 400 == 0

def daysInMonth (y m : Int) : Int :=
  if m = 2 then (if isLeapYear y then 29 else 28)
  else if m = 4 ∨ m = 6 ∨ m = 9 ∨ m = 11 then 30
  else 31

/-- Epoch day number of a civil date (proleptic Gregorian). -/
def daysFromCivil (y m d : Int) : Int :=
  let y2 := if m ≤ 2 then y - 1 else y
  let era := Int.fdiv (if 0 ≤ y2 then y2 else y2 - 399) 400
  let yoe := y2 - era * 400
  let mp := Int.emod (m + 9) 12
  let doy := Int.fdiv (153 * mp + 2) 5 + d - 1
  let doe := yoe * 365 + Int.fdiv yoe 4 - Int.fdiv yoe 100 + doy
  era * 146097 + doe - 719468

/-- Civil datetime to epoch seconds. -/
def mkDT (y m d h mi s : Int) : Int :=
  daysFromCivil y m d * 86400 + h * 3600 + mi * 60 + s

/-- Field validation performed by `datetime.__init__` (via `strptime` /
`fromisoformat`): year 1–9999, real calendar date, clock in range. -/
def buildDT (y m d h mi s : Int) : Option Int :=
  if 1 ≤ y ∧ y ≤ 9999 ∧ 1 ≤ m ∧ m ≤ 12 ∧ 1 ≤ d ∧ d ≤ daysInMonth y m ∧
     0 ≤ h ∧ h < 24 ∧ 0 ≤ mi ∧ mi < 60 ∧ 0 ≤ s ∧ s < 60 then
    some (mkDT y m d h mi s)
  else none

def twoDigits (a b : Char) : Option Int :=
  if a.isDigit && b.isDigit then some (digitVal a * 10 + digitVal b) else none

def fourDigits (a b c d : Char) : Option Int :=
  if a.isDigit && b.isDigit && c.isDigit && d.isDigit then
    some (digitVal a * 1000 + digitVal b * 100 + digitVal c * 10 + digitVal d)
  else none

/-- One `strptime` attempt of `_parse_datetime`'s four accepted formats:
`YYYY-MM-DD<sep>HH:MM[:SS]` with fixed-width fields (the canonical widths the
prompt contract mandates; `strptime`'s tolerance for shorter numeric fields
is not modelled). -/
def parseCanonical (sep : Char) : List Char → Option Int
  | [y1, y2, y3, y4, '-', mo1, mo2, '-', d1, d2, c, h1, h2, ':', mi1, mi2] =>
      if c == sep then do
        let y ← fourDigits y1 y2 y3 y4
        let mo ← twoDigits mo1 mo2
        let d ← twoDigits d1 d2
        let h ← twoDigits h1 h2
        let mi ← twoDigits mi1 mi2
        buildDT y mo d h mi 0
      else none
  | [y1, y2, y3, y4, '-', mo1, mo2, '-', d1, d2, c, h1, h2, ':', mi1, mi2,
     ':', s1, s2] =>
      if c == sep then do
        let y ← fourDigits y1 y2 y3 y4
        let mo ← twoDigits mo1 mo2
        let d ← twoDigits d1 d2
        let h ← twoDigits h1 h2
        let mi ← twoDigits mi1 mi2
        let s ← twoDigits s1 s2
        buildDT y mo d h mi s
      else none
  | _ => none

/-- The regex shape `\d{4}-\d{2}-\d{2}[T ]\d{2}:\d{2}(?::\d{2})?` tested at
one position: the extracted fields, the seconds group greedy when its two
digits are present. -/
def matchShapeAt : List Char → Option (Int × Int × Int × Int × Int × Option Int)
  | y1 :: y2 :: y3 :: y4 :: '-' :: mo1 :: mo2 :: '-' :: d1 :: d2 :: c ::
      h1 :: h2 :: ':' :: mi1 :: mi2 :: rest =>
      if c == 'T' || c == ' ' then do
        let y ← fourDigits y1 y2 y3 y4
        let mo ← twoDigits mo1 mo2
        let d ← twoDigits d1 d2
        let h ← twoDigits h1 h2
        let mi ← twoDigits mi1 mi2
        let sec : Option Int :=
          match rest with
          | ':' :: s1 :: s2 :: _ => (twoDigits s1 s2).bind fun s => some s
          | _ => none
        some (y, mo, d, h, mi, sec)
      else none
  | _ => none

/-- `_parse_datetime`'s last-ditch `re.search` followed by `strptime` on the
captured groups: the leftmost position where the shape matches decides the
outcome; an out-of-range capture (which makes both `strptime` retries raise)
yields `None`. -/
def lastDitch : List Char → Option Int
  | [] => none
  | c :: rest =>
      match matchShapeAt (c :: rest) with
      | some (y, mo, d, h, mi, sec) =>
          (match sec with
           | some s => buildDT y mo d h mi s
           | none => buildDT y mo d h mi 0)
      | none => lastDitch rest

/-- `MeetingParser._parse_datetime` on a string-or-absent value (the only
shapes the model reply carries; a `datetime` value never occurs in a decoded
JSON object, and any other type also gives `None`). -/
def parse_datetime (value : Option String) : Option Int :=
  match value with
  | none => none
  | some s =>
      let t := pyStrip s
      if t = "" then none
      else
        match parseCanonical ' ' t.data with
        | some dt => some dt
        | none =>
            match parseCanonical 'T' t.data with
            | some dt => some dt
            | none => lastDitch t.data

/-- Python `x or default` for a string-or-absent value (`None` and `""` are
falsy). -/
def pyOrStr (v : Option String) (default : String) : String :=
  match v with
  | some s => if s = "" then default else s
  | none => default

/-- `MeetingParser._finalize`.  `test_attendee_email` is
`os.getenv("TEST_ATTENDEE_EMAIL", "")`, appended unconditionally (source
comment: "for testing"). -/
def finalize (hol : Int → Bool) (now : Int) (test_attendee_email : String)
    (data : ModelJson) (command : String) : Candidate :=
  let topic := pyStrip (pyOrStr data.topic "AI Scheduler Meeting")
  let duration := safe_int data.duration 30
  let description := pyStrip (pyOrStr data.description command)
  let start_dt := parse_datetime data.start_time
  let attendees :=
    (data.attendees.getD []).filterMap fun a =>
      match a with
      | .str s => if is_email s then some s else none
      | _ => none
  let attendees := attendees ++ [test_attendee_email]
  let sr := derive_status hol now start_dt attendees
  { status := sr.1, reason := sr.2, topic := topic, start_time := start_dt,
    duration := duration, attendees := attendees, description := description,
    decision_source := "ai" }

/-- `MeetingParser._empty`. -/
def emptyCandidate (reason : String) : Candidate :=
  { status := "incomplete", reason := reason, topic := "",
    start_time := none, duration := 30, attendees := [], description := "",
    decision_source := "fallback" }

/-- `MeetingParser.parse`.  The completion call and `_load_json` are I/O plus
decoding; their combined outcome is the `model_result` argument: `.ok` is the
decoded JSON object, `.error` is any exception raised by the network call or
the JSON decode, caught by the `except` clause.  The function is total: no
exception reaches the caller. -/
def parse (hol : Int → Bool) (now : Int) (test_attendee_email : String)
    (model_result : Except String ModelJson) (command : String) : Candidate :=
  match model_result with
  | .ok data => finalize hol now test_attendee_email data command
  | .error _ => emptyCandidate "ai_error"

example : daysFromCivil 1970 1 1 = 0 := by decide
example : daysFromCivil 2025 1 28 = 20116 := by decide
example : is_email "sarah@company.com" = true := by decide
example : is_email "john@" = false := by decide
example : is_email "" = false := by decide
example : is_email "a@b@c.com" = false := by decide
example : is_email "a@.com" = false := by decide
example : is_email "a@b.c" = false := by decide
example : parse_datetime (some "2025-01-28 21:30:00") =
    some (20116 * 86400 + 21 * 3600 + 30 * 60) := by decide
example : parse_datetime (some "2025-01-28T21:30") =
    some (20116 * 86400 + 21 * 3600 + 30 * 60) := by decide
example : parse_datetime (some "2025-13-05 10:00:00") = none := by decide
example : parse_datetime (some "meet at 2025-01-28 21:30:00 ok") =
    some (20116 * 86400 + 21 * 3600 + 30 * 60) := by decide
example : parse_datetime (some "banana") = none := by decide
example : parse_datetime none = none := by decide
example : safe_int (.str "45") 30 = 45 := by decide
example : safe_int (.str "4.5") 30 = 30 := by decide
example : safe_int .pynone 30 = 30 := by decide
example : safe_int (.int (-5)) 30 = -5 := by decide

/-! ## Conflict checker (`utils.py`) -/

/-- A fetched Google Calendar event, as far as `has_overlapping_event` reads
it: `status`, `id`, `start.dateTime`, `end.dateTime` (each `none` when the
key is absent, e.g. an all-day event carries `start.date` and no
`start.dateTime`). -/
structure GEvent where
  status : Option String
  id : Option String
  startDateTime : Option String
  endDateTime : Option String

/-- `value.replace("Z", "+00:00")` on the character list. -/
def replaceZ : List Char → List Char
  | [] => []
  | 'Z' :: rest => '+' :: '0' :: '0' :: ':' :: '0' :: '0' :: replaceZ rest
  | c :: rest => c :: replaceZ rest

/-- Offset suffix `±HH:MM` accepted by `datetime.fromisoformat`, in seconds.
-/
def parseOffsetSuffix : List Char → Option Int
  | [sg, h1, h2, ':', m1, m2] => do
      let h ← twoDigits h1 h2
      let m ← twoDigits m1 m2
      if (sg == '+' || sg == '-') && decide (h < 24) && decide (m < 60) then
        some ((if sg == '-' then -1 else 1) * (h * 3600 + m * 60))
      else none
  | _ => none

/-- Clock part `HH:MM[:SS]` of an ISO string; returns the seconds since
midnight and the unconsumed suffix (fractional seconds are not modelled —
Google's timed events carry whole seconds). -/
def parseClock : List Char → Option (Int × List Char)
  | h1 :: h2 :: ':' :: m1 :: m2 :: ':' :: s1 :: s2 :: rest =>
      if s1.isDigit && s2.isDigit then do
        let h ← twoDigits h1 h2
        let m ← twoDigits m1 m2
        let s ← twoDigits s1 s2
        if decide (h < 24) && decide (m < 60) && decide (s < 60) then
          some (h * 3600 + m * 60 + s, rest)
        else none
      else do
        let h ← twoDigits h1 h2
        let m ← twoDigits m1 m2
        if decide (h < 24) && decide (m < 60) then
          some (h * 3600 + m * 60, ':' :: s1 :: s2 :: rest)
        else none
  | h1 :: h2 :: ':' :: m1 :: m2 :: rest => do
      let h ← twoDigits h1 h2
      let m ← twoDigits m1 m2
      if decide (h < 24) && decide (m < 60) then
        some (h * 3600 + m * 60, rest)
      else none
  | _ => none

/-- `datetime.fromisoformat`, restricted to the shapes Google Calendar emits
(after the `Z` replacement): `YYYY-MM-DD`, or `YYYY-MM-DD` + (`T` or space) +
`HH:MM[:SS]` + optional `±HH:MM` offset.  Returns the civil seconds and the
offset (in seconds) when one is present; `none` models the `ValueError` of
an unparseable string. -/
def fromisoformat : List Char → Option (Int × Option Int)
  | y1 :: y2 :: y3 :: y4 :: '-' :: m1 :: m2 :: '-' :: d1 :: d2 :: rest => do
      let y ← fourDigits y1 y2 y3 y4
      let m ← twoDigits m1 m2
      let d ← twoDigits d1 d2
      let date ← buildDT y m d 0 0 0
      match rest with
      | [] => some (date, none)
      | sep :: t =>
          if sep == 'T' || sep == ' ' then do
            let (clock, rest2) ← parseClock t
            match rest2 with
            | [] => some (date + clock, none)
            | _ => do
                let off ← parseOffsetSuffix rest2
                some (date + clock, some off)
          else none
  | _ => none

/-- `utils._to_utc_naive` applied to a `fromisoformat` result: a naive value
is tagged JST (UTC+9) and every value is converted to naive UTC. -/
def to_utc_from_iso (civil : Int) (offset : Option Int) : Int :=
  match offset with
  | some off => civil - off
  | none => civil - 32400

/-- `utils._parse_google_datetime`: `None` or `""` gives `None`; otherwise
`fromisoformat` after the `Z` replacement, whose `ValueError` on a malformed
string is NOT caught — it escapes, modelled by `.error`. -/
def parse_google_datetime (value : Option String) :
    Except String (Option Int) :=
  match value with
  | none => .ok none
  | some v =>
      if v = "" then .ok none
      else
        match fromisoformat (replaceZ v.data) with
        | some (civil, off) => .ok (some (to_utc_from_iso civil off))
        | none => .error "ValueError"

/-- The half-open interval overlap test `has_overlapping_event` applies to
the candidate interval `[s1, e1)` and an existing event `[s2, e2)`:
`existing_start < end_time and start_time_utc < existing_end`, i.e.
`s1 < e2 AND s2 < e1` with `(s1, e1)` the candidate and `(s2, e2)` the
existing event. -/
def overlaps (s1 e1 s2 e2 : Int) : Bool :=
  decide (s2 < e1) && decide (s1 < e2)

/-- `exclude_event_id and existing.get("id") == exclude_event_id` (a present
but empty id string is falsy in Python). -/
def excludeMatches (exclude_event_id evId : Option String) : Bool :=
  match exclude_event_id with
  | some e => if e = "" then false else evId == some e
  | none => false

/-- The `for existing in events:` loop body of `has_overlapping_event`:
skip cancelled events, skip the excluded id, parse both endpoints (either
parse may raise), skip events missing either endpoint, and return `True` on
the first overlap. -/
def overlap_scan (start_time_utc end_time : Int)
    (exclude_event_id : Option String) : List GEvent → Except String Bool
  | [] => .ok false
  | ev :: rest =>
      if ev.status = some "cancelled" then
        overlap_scan start_time_utc end_time exclude_event_id rest
      else if excludeMatches exclude_event_id ev.id then
        overlap_scan start_time_utc end_time exclude_event_id rest
      else
        match parse_google_datetime ev.startDateTime with
        | .error e => .error e
        | .ok existing_start =>
            match parse_google_datetime ev.endDateTime with
            | .error e => .error e
            | .ok existing_end =>
                match existing_start, existing_end with
                | some es, some ee =>
                    if overlaps start_time_utc end_time es ee then .ok true
                    else overlap_scan start_time_utc end_time
                           exclude_event_id rest
                | _, _ =>
                    overlap_scan start_time_utc end_time exclude_event_id rest

/-- `utils.has_overlapping_event`.  The events fetched from the Calendar API
for the window are the `events` argument; `start_time` is the pipeline's
JST-naive candidate start, converted by `_to_utc_naive` (no offset ⇒ JST). -/
def has_overlapping_event (events : List GEvent) (start_time : Int)
    (duration_minutes : Int) (exclude_event_id : Option String) :
    Except String Bool :=
  if duration_minutes ≤ 0 then .ok false
  else
    let start_time_utc := start_time - 32400
    let end_time := start_time_utc + duration_minutes * 60
    overlap_scan start_time_utc end_time exclude_event_id events

example : fromisoformat "2025-01-28T21:30:00+09:00".data =
    some (20116 * 86400 + 21 * 3600 + 30 * 60, some 32400) := by decide
example : fromisoformat (replaceZ "2025-01-28T12:30:00Z".data) =
    some (20116 * 86400 + 12 * 3600 + 30 * 60, some 0) := by decide
example : fromisoformat "2025-01-28".data =
    some (20116 * 86400, none) := by decide
example : fromisoformat "banana".data = none := by decide
example : parse_google_datetime (some "2025-01-28T21:30:00+09:00") =
    .ok (some (20116 * 86400 + 12 * 3600 + 30 * 60)) := by rfl
example : parse_google_datetime none = .ok none := by rfl
example : parse_google_datetime (some "banana") = .error "ValueError" := by
  rfl

example : weekday 0 = 3 := by decide

/-! ## Helper lemmas -/

/-- `is_japanese_working_hours` holds exactly on non-holiday weekdays with a
time of day in `[09:00, 19:00)` — the same condition `_derive_status`
spells out inline. -/
theorem jwh_eq_true_iff (hol : Int → Bool) (dt : Int) :
    is_japanese_working_hours hol dt = true ↔
      weekday dt < 5 ∧ (32400 ≤ timeOfDay dt ∧ timeOfDay dt < 68400) ∧
      hol (dayNumber dt) = false := by
  unfold is_japanese_working_hours
  split_ifs with h1 h2 h3
  · simp [h1]
  · simp only [Bool.not_eq_true] at h1
    simp [h1]
    omega
  · simp only [Bool.not_eq_true] at h1
    simp [h1]
    omega
  · simp only [Bool.not_eq_true] at h1
    simp [h1]
    omega

/-- The fallback evaluator only rewrites `status` and `reason`. -/
theorem fallback_preserves_fields (hol : Int → Bool) (now : Int)
    (c : Candidate) :
    (apply_hardcoded_fallback_rules hol now c).start_time = c.start_time ∧
    (apply_hardcoded_fallback_rules hol now c).attendees = c.attendees := by
  obtain ⟨s, r, tp, sta, du, att, de, ds⟩ := c
  cases sta
  · exact ⟨rfl, rfl⟩
  · simp only [apply_hardcoded_fallback_rules]
    split_ifs <;> exact ⟨rfl, rfl⟩

/-- A `"valid"` verdict of the fallback evaluator certifies the fields. -/
theorem fallback_valid_implies (hol : Int → Bool) (now : Int) (c : Candidate)
    (h : (apply_hardcoded_fallback_rules hol now c).status = "valid") :
    ∃ t, c.start_time = some t ∧ c.attendees ≠ [] ∧ now < t ∧
      18000 ≤ t - now := by
  unfold apply_hardcoded_fallback_rules at h
  split at h
  · exact absurd (show ("incomplete" : String) = "valid" from h) (by decide)
  · rename_i t hst
    split_ifs at h with h0 h1 h2
    · exact absurd (show ("no_attendees" : String) = "valid" from h)
        (by decide)
    · exact absurd (show ("too_soon" : String) = "valid" from h) (by decide)
    · exact absurd (show ("not_working_hours" : String) = "valid" from h)
        (by decide)
    · refine ⟨t, hst, ?_, by omega, by omega⟩
      intro hnil
      rw [hnil] at h0
      exact h0 rfl

/-- A `"valid"` verdict of `_derive_status` certifies the fields. -/
theorem derive_valid_implies (hol : Int → Bool) (now : Int)
    (start_dt : Option Int) (attendees : List String)
    (h : (derive_status hol now start_dt attendees).1 = "valid") :
    ∃ t, start_dt = some t ∧ attendees ≠ [] ∧ now < t ∧
      18000 ≤ t - now := by
  cases start_dt with
  | none =>
      exact absurd (show ("incomplete" : String) = "valid" from h) (by decide)
  | some t =>
      simp only [derive_status] at h
      split_ifs at h with h0 h1 h2
      · exact absurd (show ("no_attendees" : String) = "valid" from h)
          (by decide)
      · exact absurd (show ("too_soon" : String) = "valid" from h) (by decide)
      · exact absurd (show ("not_working_hours" : String) = "valid" from h)
          (by decide)
      · refine ⟨t, rfl, ?_, by omega, by omega⟩
        intro hnil
        rw [hnil] at h0
        simp at h0

/-- The fallback evaluator and `_derive_status` compute the same status from
the same normalized `start_time`/`attendees` at the same civil instant. -/
theorem fallback_status_eq_derive (hol : Int → Bool) (now : Int)
    (c : Candidate) :
    (apply_hardcoded_fallback_rules hol now c).status =
      (derive_status hol now c.start_time c.attendees).1 := by
  obtain ⟨s, r, tp, sta, du, att, de, ds⟩ := c
  cases sta with
  | none => rfl
  | some t =>
      simp only [apply_hardcoded_fallback_rules, derive_status]
      cases att with
      | nil => rfl
      | cons a as =>
          have h0 : ¬ (a :: as).length = 0 := by simp
          have h0i : ¬ ((a :: as).isEmpty = true) := by simp
          rw [if_neg h0, if_neg h0i]
          by_cases h1 : t - now < 18000
          · rw [if_pos (Or.inr h1), if_pos (Or.inr h1)]
          · have hf : ¬(t < now ∨ t - now < 18000) := by omega
            have hd : ¬(t ≤ now ∨ t - now < 18000) := by omega
            rw [if_neg hf, if_neg hd]
            by_cases hw : weekday t < 5 ∧
                (32400 ≤ timeOfDay t ∧ timeOfDay t < 68400) ∧
                hol (dayNumber t) = false
            · rw [if_pos ((jwh_eq_true_iff hol t).mpr hw), if_pos hw]
            · rw [if_neg (fun hh => hw ((jwh_eq_true_iff hol t).mp hh)),
                  if_neg hw]

/-! ## Claims -/

/-- Claim C2: the fallback status rules are first-match-wins in the fixed
priority order — missing start_time → `"incomplete"`; then empty attendees →
`"no_attendees"`; then past start or lead time under 5 hours (18000 s) →
`"too_soon"`; then a weekday, non-holiday time of day in `[09:00, 19:00)`
JST → `"not_working_hours"`; otherwise `"valid"`.  In particular
`start_time = None, attendees = []` yields `"incomplete"`, not
`"no_attendees"` (last two conjuncts, also for `_derive_status`). -/
theorem C2_fallback_rule_priority (hol : Int → Bool) (now : Int)
    (c : Candidate) :
    (c.start_time = none →
      (apply_hardcoded_fallback_rules hol now c).status = "incomplete") ∧
    (∀ t, c.start_time = some t → c.attendees = [] →
      (apply_hardcoded_fallback_rules hol now c).status = "no_attendees") ∧
    (∀ t, c.start_time = some t → c.attendees ≠ [] →
      (t < now ∨ t - now < 18000) →
      (apply_hardcoded_fallback_rules hol now c).status = "too_soon") ∧
    (∀ t, c.start_time = some t → c.attendees ≠ [] →
      ¬(t < now ∨ t - now < 18000) →
      weekday t < 5 ∧ (32400 ≤ timeOfDay t ∧ timeOfDay t < 68400) ∧
        hol (dayNumber t) = false →
      (apply_hardcoded_fallback_rules hol now c).status =
        "not_working_hours") ∧
    (∀ t, c.start_time = some t → c.attendees ≠ [] →
      ¬(t < now ∨ t - now < 18000) →
      ¬(weekday t < 5 ∧ (32400 ≤ timeOfDay t ∧ timeOfDay t < 68400) ∧
        hol (dayNumber t) = false) →
      (apply_hardcoded_fallback_rules hol now c).status = "valid") ∧
    (c.start_time = none → c.attendees = [] →
      (apply_hardcoded_fallback_rules hol now c).status = "incomplete") ∧
    (derive_status hol now none []).1 = "incomplete" := by
  refine ⟨?_, ?_, ?_, ?_, ?_, ?_, rfl⟩
  · intro h
    simp only [apply_hardcoded_fallback_rules, h]
  · intro t h ha
    have hlen : c.attendees.length = 0 := by rw [ha]; rfl
    simp only [apply_hardcoded_fallback_rules, h, if_pos hlen]
  · intro t h ha hts
    have hlen : ¬ c.attendees.length = 0 := by
      simpa [List.length_eq_zero] using ha
    simp only [apply_hardcoded_fallback_rules, h, if_neg hlen, if_pos hts]
  · intro t h ha hts hw
    have hlen : ¬ c.attendees.length = 0 := by
      simpa [List.length_eq_zero] using ha
    have hjwh : is_japanese_working_hours hol t = true :=
      (jwh_eq_true_iff hol t).mpr hw
    simp only [apply_hardcoded_fallback_rules, h, if_neg hlen, if_neg hts,
      if_pos hjwh]
  · intro t h ha hts hw
    have hlen : ¬ c.attendees.length = 0 := by
      simpa [List.length_eq_zero] using ha
    have hjwh : ¬ is_japanese_working_hours hol t = true := by
      rw [jwh_eq_true_iff]
      exact hw
    simp only [apply_hardcoded_fallback_rules, h, if_neg hlen, if_neg hts,
      if_neg hjwh]
  · intro h _
    simp only [apply_hardcoded_fallback_rules, h]

/-- Claim C5: for the same normalized fields evaluated at the same instant,
`_derive_status` and the fallback evaluator return the same status, and the
fallback's result status does not depend on the status previously attached
to the candidate (second conjunct: overwriting the incoming status leaves
the verdict unchanged) — the two implementations of the rule set agree. -/
theorem C5_fallback_equiv_derive (hol : Int → Bool) (now : Int)
    (c : Candidate) :
    ((apply_hardcoded_fallback_rules hol now c).status =
      (derive_status hol now c.start_time c.attendees).1) ∧
    (∀ s, (apply_hardcoded_fallback_rules hol now
        { c with status := s }).status =
      (apply_hardcoded_fallback_rules hol now c).status) := by
  refine ⟨fallback_status_eq_derive hol now c, fun s => ?_⟩
  rw [fallback_status_eq_derive hol now { c with status := s },
    fallback_status_eq_derive hol now c]

/-- Claim C7: with a present start_time and non-empty attendees, both status
computations reject for lead time (status `"too_soon"`) exactly when the
start is in the past or less than 5 hours (18000 s) after `now`; a start 5
hours or more ahead is never rejected for lead time. -/
theorem C7_lead_time_boundary (hol : Int → Bool) (now t : Int)
    (att : List String) (c : Candidate) (hatt : att ≠ [])
    (hst : c.start_time = some t) (hca : c.attendees = att) :
    ((derive_status hol now (some t) att).1 = "too_soon" ↔
      (t < now ∨ t - now < 18000)) ∧
    ((apply_hardcoded_fallback_rules hol now c).status = "too_soon" ↔
      (t < now ∨ t - now < 18000)) := by
  have hmain : (derive_status hol now (some t) att).1 = "too_soon" ↔
      (t < now ∨ t - now < 18000) := by
    cases att with
    | nil => exact absurd rfl hatt
    | cons a as =>
        simp only [derive_status]
        have h0i : ¬ ((a :: as).isEmpty = true) := by simp
        rw [if_neg h0i]
        by_cases h1 : t ≤ now ∨ t - now < 18000
        · rw [if_pos h1]
          exact ⟨fun _ => by omega, fun _ => rfl⟩
        · rw [if_neg h1]
          constructor
          · intro hcontra
            by_cases hw : weekday t < 5 ∧
                (32400 ≤ timeOfDay t ∧ timeOfDay t < 68400) ∧
                hol (dayNumber t) = false
            · rw [if_pos hw] at hcontra
              exact absurd
                (show ("not_working_hours" : String) = "too_soon"
                  from hcontra) (by decide)
            · rw [if_neg hw] at hcontra
              exact absurd (show ("valid" : String) = "too_soon" from hcontra)
                (by decide)
          · intro hx
            exact absurd (by omega : t ≤ now ∨ t - now < 18000) h1
  refine ⟨hmain, ?_⟩
  rw [fallback_status_eq_derive hol now c, hst, hca]
  exact hmain

/-- Claim C3: every candidate leaving the reconciliation step with status
`"valid"` — whether the AI decision was kept or the fallback recomputed it —
has a present `start_time`, a non-empty attendees list, and a start at least
the minimum lead time (18000 s = 5 h) after the evaluation instant. -/
theorem C3_valid_output_invariant (hol : Int → Bool) (now : Int)
    (test_attendee_email : String) (model_result : Except String ModelJson)
    (command : String) (c : Candidate)
    (hc : c = reconcile hol now
      (parse hol now test_attendee_email model_result command))
    (hv : c.status = "valid") :
    ∃ t, c.start_time = some t ∧ c.attendees ≠ [] ∧ now < t ∧
      18000 ≤ t - now := by
  subst hc
  cases model_result with
  | error e =>
      have hu : is_ai_decision_usable (emptyCandidate "ai_error") = false :=
        by decide
      have hrec : reconcile hol now
          (parse hol now test_attendee_email (Except.error e) command) =
          apply_hardcoded_fallback_rules hol now (emptyCandidate "ai_error")
          := by
        show (if is_ai_decision_usable (emptyCandidate "ai_error") = true
          then emptyCandidate "ai_error"
          else apply_hardcoded_fallback_rules hol now
            (emptyCandidate "ai_error")) = _
        rw [hu]
        simp
      rw [hrec] at hv
      exact absurd (show ("incomplete" : String) = "valid" from hv)
        (by decide)
  | ok data =>
      have hps : parse hol now test_attendee_email (Except.ok data) command =
          finalize hol now test_attendee_email data command := rfl
      rw [hps] at hv ⊢
      by_cases hu : is_ai_decision_usable
          (finalize hol now test_attendee_email data command) = true
      · have hr : reconcile hol now
            (finalize hol now test_attendee_email data command) =
            finalize hol now test_attendee_email data command := by
          unfold reconcile
          rw [hu]
          simp
        rw [hr] at hv ⊢
        have hds : (finalize hol now test_attendee_email data command).status
            = (derive_status hol now
                (finalize hol now test_attendee_email data command).start_time
                (finalize hol now test_attendee_email data command).attendees
              ).1 := rfl
        exact derive_valid_implies hol now _ _ (hds ▸ hv)
      · have hu' : is_ai_decision_usable
            (finalize hol now test_attendee_email data command) = false := by
          cases h : is_ai_decision_usable
              (finalize hol now test_attendee_email data command)
          · rfl
          · exact absurd h hu
        have hr : reconcile hol now
            (finalize hol now test_attendee_email data command) =
            apply_hardcoded_fallback_rules hol now
              (finalize hol now test_attendee_email data command) := by
          unfold reconcile
          rw [hu']
          simp
        rw [hr] at hv ⊢
        obtain ⟨t, h1, h2, h3, h4⟩ := fallback_valid_implies hol now _ hv
        have hp := fallback_preserves_fields hol now
          (finalize hol now test_attendee_email data command)
        exact ⟨t, hp.1.trans h1, fun hnil => h2 (hp.2.symm.trans hnil),
          h3, h4⟩

/-- Holiday table with no holidays, for concrete evaluations. -/
def noHolidays : Int → Bool := fun _ => false

/-- A decoded model reply whose normalized fields pass every rule when
evaluated at `now = 0` (1970-01-01 00:00 JST, a Thursday): start
1970-01-03 10:00 JST is a Saturday two days ahead. -/
def validJson : ModelJson :=
  { topic := some "Interview", start_time := some "1970-01-03 10:00:00",
    duration := .int 45, attendees := some [.str "john@example.com"],
    description := some "d" }

/-- An extractor-shaped candidate claiming validity with no attendees. -/
def hallucinatedValid : Candidate :=
  { status := "valid", reason := "ok", topic := "t",
    start_time := some 208800, duration := 30, attendees := [],
    description := "", decision_source := "ai" }

/-- A candidate with no start_time and no attendees. -/
def candNoneEmpty : Candidate :=
  { status := "valid", reason := "", topic := "t", start_time := none,
    duration := 30, attendees := [], description := "",
    decision_source := "ai" }

/-- A candidate 4 h 59 m (17940 s) ahead of `now = 0`. -/
def candSoon : Candidate :=
  { status := "valid", reason := "", topic := "t", start_time := some 17940,
    duration := 30, attendees := ["a@b.co"], description := "",
    decision_source := "ai" }

/-- A candidate 5 h 00 m 01 s (18001 s) ahead of `now = 0`. -/
def candJustFarEnough : Candidate :=
  { status := "valid", reason := "", topic := "t", start_time := some 18001,
    duration := 30, attendees := ["a@b.co"], description := "",
    decision_source := "ai" }

/-- Claim C6: the conflict checker's interval-overlap test is symmetric and
half-open: `[s1,e1)` and `[s2,e2)` overlap iff `s1 < e2 AND s2 < e1`, so
`[10:00,10:30)` and `[10:30,11:00)` do not overlap while `[10:00,10:31)` and
`[10:30,11:00)` do (times in minutes of the day, as seconds). -/
theorem C6_overlap_symmetric_half_open :
    (∀ s1 e1 s2 e2 : Int, overlaps s1 e1 s2 e2 = overlaps s2 e2 s1 e1) ∧
    (∀ s1 e1 s2 e2 : Int,
      overlaps s1 e1 s2 e2 = true ↔ s1 < e2 ∧ s2 < e1) ∧
    overlaps (600 * 60) (630 * 60) (630 * 60) (660 * 60) = false ∧
    overlaps (600 * 60) (631 * 60) (630 * 60) (660 * 60) = true := by
  refine ⟨?_, ?_, by decide, by decide⟩
  · intro s1 e1 s2 e2
    unfold overlaps
    by_cases h1 : s1 < e2 <;> by_cases h2 : s2 < e1 <;> simp [h1, h2]
  · intro s1 e1 s2 e2
    unfold overlaps
    rw [Bool.and_eq_true, decide_eq_true_iff, decide_eq_true_iff, and_comm]

/-- Claim C8: if the model call or the decoding of its response fails with
any exception, `MeetingParser.parse` returns the canonical incomplete
candidate (status `"incomplete"`, `decision_source "fallback"`, no
`start_time`, empty attendees, empty topic and description, duration 30).
`parse` is a total Lean function into `Candidate`, so no exception reaches
the caller. -/
theorem C8_parse_failure_canonical_incomplete (hol : Int → Bool) (now : Int)
    (test_attendee_email : String) (err : String) (command : String) :
    parse hol now test_attendee_email (.error err) command =
      emptyCandidate "ai_error" ∧
    (emptyCandidate "ai_error").status = "incomplete" ∧
    (emptyCandidate "ai_error").decision_source = "fallback" ∧
    (emptyCandidate "ai_error").start_time = none ∧
    (emptyCandidate "ai_error").attendees = [] ∧
    (emptyCandidate "ai_error").topic = "" ∧
    (emptyCandidate "ai_error").description = "" ∧
    (emptyCandidate "ai_error").duration = 30 :=
  ⟨rfl, rfl, rfl, rfl, rfl, rfl, rfl, rfl⟩

/-- Claim C1: a candidate claiming `decision_source = "ai"`,
`status = "valid"`, with a genuine datetime `start_time` but an empty
attendees list is deemed unusable by the reconciler, which recomputes the
status via the fallback evaluator; the recomputed status is
`"no_attendees"`. -/
theorem C1_reconciler_overrides_hallucinated_valid (hol : Int → Bool)
    (now : Int) (c : Candidate) (t : Int)
    (hsrc : c.decision_source = "ai") (hst : c.status = "valid")
    (hstart : c.start_time = some t) (hatt : c.attendees = []) :
    is_ai_decision_usable c = false ∧
    reconcile hol now c = apply_hardcoded_fallback_rules hol now c ∧
    (reconcile hol now c).status = "no_attendees" := by
  have husable : is_ai_decision_usable c = false := by
    unfold is_ai_decision_usable
    rw [hsrc, hst, hstart, hatt]
    simp
  have hrec : reconcile hol now c = apply_hardcoded_fallback_rules hol now c := by
    unfold reconcile
    rw [husable]
    simp
  have hfb : (apply_hardcoded_fallback_rules hol now c).status =
      "no_attendees" := by
    unfold apply_hardcoded_fallback_rules
    rw [hstart, hatt]
    simp
  exact ⟨husable, hrec, hrec ▸ hfb⟩
example : is_japanese_working_hours (fun _ => false) 36000 = true := by decide
example : is_japanese_working_hours (fun _ => false) (2 * 86400 + 36000) = false := by decide
example : is_japanese_working_hours (fun _ => true) 36000 = false := by decide

/-- The model reply of claim C4's scenario: one well-formed and one
malformed attendee address. -/
def c4Json : ModelJson :=
  { topic := some "Sync", start_time := none, duration := .int 30,
    attendees := some [.str "sarah@company.com", .str "john@"],
    description := some "d" }

/-- Claim C4 (evaluated at the failing input): the email filter itself keeps
`"sarah@company.com"` and drops `"john@"`, but `_finalize` then appends
`os.getenv("TEST_ATTENDEE_EMAIL", "")` unconditionally (source comment "for
testing"), so with the variable unset the produced attendees list is
`["sarah@company.com", ""]` and contains a string — `""` — that fails the
email grammar, contradicting the claimed invariant (and making the
`no_attendees` verdict unreachable from the extractor path). -/
theorem C4_email_filter_append_bug :
    (finalize noHolidays 0 "" c4Json "cmd").attendees =
      ["sarah@company.com", ""] ∧
    is_email "sarah@company.com" = true ∧
    is_email "john@" = false ∧
    is_email "" = false ∧
    ¬ (∀ a ∈ (finalize noHolidays 0 "" c4Json "cmd").attendees,
        is_email a = true) := by
  refine ⟨by decide, by decide, by decide, by decide, ?_⟩
  intro hall
  exact absurd (hall "" (by decide)) (by decide)

/-- A model reply carrying a given `duration` value. -/
def durJson (d : PyVal) : ModelJson :=
  { topic := some "t", start_time := none, duration := d,
    attendees := some [], description := some "d" }

/-- Claim C9, counterexample to "duration_minutes is a positive integer": a
model reply with `duration = -5` is coerced successfully by `int()` and kept,
so the normalized candidate's duration is `-5`, not positive. -/
theorem C9_counterexample_negative_duration :
    (finalize noHolidays 0 "" (durJson (.int (-5))) "cmd").duration = -5 ∧
    ¬ 0 < (finalize noHolidays 0 "" (durJson (.int (-5))) "cmd").duration :=
  ⟨by decide, by decide⟩

/-- Claim C9 as amended: the normalized candidate's `duration` is the
supplied value coerced by `int(…)`, defaulting to 30 whenever the coercion
fails (absent value, unparseable string, or a list); a supplied integer —
positive or not — is kept as-is. -/
theorem C9_duration_coercion (hol : Int → Bool) (now : Int)
    (test_attendee_email command : String) (data : ModelJson) :
    ((finalize hol now test_attendee_email data command).duration =
      safe_int data.duration 30) ∧
    (data.duration = .pynone →
      (finalize hol now test_attendee_email data command).duration = 30) ∧
    (∀ s, data.duration = .str s → parseIntLiteral s = none →
      (finalize hol now test_attendee_email data command).duration = 30) ∧
    (∀ s n, data.duration = .str s → parseIntLiteral s = some n →
      (finalize hol now test_attendee_email data command).duration = n) ∧
    (∀ n, data.duration = .int n →
      (finalize hol now test_attendee_email data command).duration = n) ∧
    (∀ xs, data.duration = .list xs →
      (finalize hol now test_attendee_email data command).duration = 30) := by
  refine ⟨rfl, ?_, ?_, ?_, ?_, ?_⟩
  · intro h
    show safe_int data.duration 30 = 30
    rw [h]
    rfl
  · intro s h hp
    show safe_int data.duration 30 = 30
    rw [h]
    simp only [safe_int, hp]
  · intro s n h hp
    show safe_int data.duration 30 = n
    rw [h]
    simp only [safe_int, hp]
  · intro n h
    show safe_int data.duration 30 = n
    rw [h]
    rfl
  · intro xs h
    show safe_int data.duration 30 = 30
    rw [h]
    rfl

/-- Claim C10 as amended: an event whose start or end `dateTime` is absent
(such as an all-day event carrying only a `date`), with any present
`dateTime` field still parseable, is skipped without error and contributes
nothing to the conflict check. -/
theorem C10_missing_datetime_skipped (rest : List GEvent) (ev : GEvent)
    (st dur : Int) (ex : Option String)
    (hmiss : ev.startDateTime = none ∨ ev.endDateTime = none)
    (hs : ∃ a, parse_google_datetime ev.startDateTime = .ok a)
    (he : ∃ b, parse_google_datetime ev.endDateTime = .ok b) :
    has_overlapping_event (ev :: rest) st dur ex =
      has_overlapping_event rest st dur ex := by
  unfold has_overlapping_event
  by_cases hdur : dur ≤ 0
  · rw [if_pos hdur, if_pos hdur]
  · rw [if_neg hdur, if_neg hdur]
    obtain ⟨a, ha⟩ := hs
    obtain ⟨b, hb⟩ := he
    simp only [overlap_scan]
    split_ifs with hcan hexc
    · rfl
    · rfl
    · rw [ha, hb]
      cases hmiss with
      | inl h =>
          rw [h] at ha
          have hna : (Except.ok (none : Option Int) :
              Except String (Option Int)) = .ok a := ha
          injection hna with hna2
          rw [← hna2]
      | inr h =>
          rw [h] at hb
          have hnb : (Except.ok (none : Option Int) :
              Except String (Option Int)) = .ok b := hb
          injection hnb with hnb2
          rw [← hnb2]
          cases a <;> rfl

/-- An all-day event: no `start.dateTime` / `end.dateTime`. -/
def allDayEvent : GEvent :=
  { status := none, id := some "e1", startDateTime := none,
    endDateTime := none }

/-- An event whose `start.dateTime` is present but not ISO-parseable. -/
def malformedEvent : GEvent :=
  { status := none, id := some "e2", startDateTime := some "banana",
    endDateTime := some "1970-01-03T11:00:00+09:00" }

/-- Claim C10, counterexample to "an event whose start or end lacks a
parseable dateTime value is skipped without error": an event carrying a
present but malformed `start.dateTime` string makes `fromisoformat` raise
`ValueError`, which `_parse_google_datetime` does not catch — the conflict
check errors instead of skipping. -/
theorem C10_counterexample_malformed_raises :
    has_overlapping_event [malformedEvent] 208800 30 none =
      .error "ValueError" := by
  rfl

/-! ## Witnesses -/

theorem C1_reconciler_overrides_hallucinated_valid_witness :
    is_ai_decision_usable hallucinatedValid = false ∧
    reconcile noHolidays 0 hallucinatedValid =
      apply_hardcoded_fallback_rules noHolidays 0 hallucinatedValid ∧
    (reconcile noHolidays 0 hallucinatedValid).status = "no_attendees" :=
  C1_reconciler_overrides_hallucinated_valid noHolidays 0 hallucinatedValid
    208800 rfl rfl rfl rfl

theorem C2_fallback_rule_priority_witness :
    (apply_hardcoded_fallback_rules noHolidays 0 candNoneEmpty).status =
      "incomplete" ∧
    (apply_hardcoded_fallback_rules noHolidays 0 candSoon).status =
      "too_soon" := by
  constructor
  · exact (C2_fallback_rule_priority noHolidays 0
      candNoneEmpty).2.2.2.2.2.1 rfl rfl
  · exact (C2_fallback_rule_priority noHolidays 0 candSoon).2.2.1 17940 rfl
      (by decide) (Or.inr (by decide))

theorem C3_valid_output_invariant_witness :
    ∃ t, (reconcile noHolidays 0
        (parse noHolidays 0 "" (Except.ok validJson) "cmd")).start_time =
        some t ∧
      (reconcile noHolidays 0
        (parse noHolidays 0 "" (Except.ok validJson) "cmd")).attendees ≠
        [] ∧
      0 < t ∧ 18000 ≤ t - 0 :=
  C3_valid_output_invariant noHolidays 0 "" (Except.ok validJson) "cmd"
    (reconcile noHolidays 0
      (parse noHolidays 0 "" (Except.ok validJson) "cmd")) rfl (by decide)

theorem C7_lead_time_boundary_witness :
    (derive_status noHolidays 0 (some 17940) ["a@b.co"]).1 = "too_soon" ∧
    ¬ (derive_status noHolidays 0 (some 18001) ["a@b.co"]).1 = "too_soon" ∧
    (apply_hardcoded_fallback_rules noHolidays 0 candJustFarEnough).status ≠
      "too_soon" := by
  refine ⟨?_, ?_, ?_⟩
  · exact (C7_lead_time_boundary noHolidays 0 17940 ["a@b.co"] candSoon
      (by decide) rfl rfl).1.mpr (Or.inr (by decide))
  · intro hcontra
    have h := (C7_lead_time_boundary noHolidays 0 18001 ["a@b.co"]
      candJustFarEnough (by decide) rfl rfl).1.mp hcontra
    omega
  · intro hcontra
    have h := (C7_lead_time_boundary noHolidays 0 18001 ["a@b.co"]
      candJustFarEnough (by decide) rfl rfl).2.mp hcontra
    omega

theorem C9_duration_coercion_witness :
    (finalize noHolidays 0 "" (durJson (.str "4.5")) "cmd").duration = 30 ∧
    (finalize noHolidays 0 "" (durJson (.str "45")) "cmd").duration = 45 ∧
    (finalize noHolidays 0 "" (durJson .pynone) "cmd").duration = 30 := by
  refine ⟨?_, ?_, ?_⟩
  · exact (C9_duration_coercion noHolidays 0 "" "cmd"
      (durJson (.str "4.5"))).2.2.1 "4.5" rfl (by decide)
  · exact (C9_duration_coercion noHolidays 0 "" "cmd"
      (durJson (.str "45"))).2.2.2.1 "45" 45 rfl (by decide)
  · exact (C9_duration_coercion noHolidays 0 "" "cmd"
      (durJson .pynone)).2.1 rfl

theorem C10_missing_datetime_skipped_witness :
    has_overlapping_event [allDayEvent] 208800 30 none =
      has_overlapping_event [] 208800 30 none :=
  C10_missing_datetime_skipped [] allDayEvent 208800 30 none (Or.inl rfl)
    ⟨none, rfl⟩ ⟨none, rfl⟩

end Scheduler
